import Mathlib

/-! Verification of the stream handling, provider resolution and billing logic
of a multi-provider LLM gateway.  The Python sources are shallowly embedded:
strings become `String` or `List Char` where character-level reasoning is
needed, optional fields become `Option`, raised `ProviderError`s become
explicit error values, and mutation of the shared request context becomes
explicit state passing. -/

namespace XRouter

/-- Token usage attached to a stream chunk (`providers.models.Usage`); only
the three token counts relevant to the verified claims are carried. -/
structure Usage where
  prompt_tokens : Nat
  completion_tokens : Nat
  total_tokens : Nat
deriving DecidableEq, Repr

/-- The `function` member of a tool call: `{name, arguments}`. -/
structure ToolCallFunction where
  name : String
  arguments : String
deriving DecidableEq, Repr

/-- A tool call as carried in deltas (`providers.models` MessageToolCall).
`function` is present exactly for calls of type `"function"`. -/
structure MessageToolCall where
  id : String
  type : String
  function : Option ToolCallFunction
deriving DecidableEq, Repr

/-- The delta payload of a streaming choice (AssistantMessage used as delta). -/
structure DeltaMessage where
  role : Option String := none
  content : Option String := none
  reasoning : Option String := none
  tool_calls : Option (List MessageToolCall) := none
deriving DecidableEq, Repr

/-- A choice of an internal stream chunk. -/
structure StreamChoice where
  index : Nat
  delta : Option DeltaMessage := none
  finish_reason : Option String := none
deriving DecidableEq, Repr

/-- An internal provider-agnostic stream chunk
(`providers.models.ProviderStreamChunk`), restricted to the fields the
verified claims read. -/
structure ProviderStreamChunk where
  id : String := ""
  created : Nat := 0
  choices : List StreamChoice := []
  usage : Option Usage := none
deriving DecidableEq, Repr

/-- `any(choice.finish_reason is not None for choice in chunk.choices)`. -/
def chunkHasFinish (chunk : ProviderStreamChunk) : Bool :=
  chunk.choices.any (fun choice => choice.finish_reason.isSome)

/-- `chunk.usage is not None`. -/
def chunkHasUsage (chunk : ProviderStreamChunk) : Bool :=
  chunk.usage.isSome

/-! ### Terminal-chunk detector of the completion stage

`CompletionHandler._is_final_chunk` reads and writes three pieces of the
shared request context: `context.metadata["has_finish_reason"]`,
`context.metadata["finish_reason"]` and `context.native_usage`. -/

/-- The completion-stage detector state stored on the request context. -/
structure DetectorCtx where
  has_finish_reason_flag : Bool
  stored_finish_reason : Option String
  native_usage : Option Usage
deriving DecidableEq, Repr

/-- Fresh request context: empty metadata, no native usage. -/
def DetectorCtx.init : DetectorCtx :=
  { has_finish_reason_flag := false
    stored_finish_reason := none
    native_usage := none }

/-- `CompletionHandler._is_final_chunk`: classifies a chunk as terminal and
returns the updated context state. -/
def isFinalChunk (chunk : ProviderStreamChunk) (ctx : DetectorCtx) :
    Bool × DetectorCtx :=
  -- Always save usage when we see it
  let ctx1 := if chunkHasUsage chunk then { ctx with native_usage := chunk.usage } else ctx
  -- Case 1: Both finish_reason and usage in same chunk
  if chunkHasFinish chunk && chunkHasUsage chunk then (true, ctx1)
  -- Case 2: Has usage and we previously saw finish_reason
  else if chunkHasUsage chunk && ctx1.has_finish_reason_flag then (true, ctx1)
  -- Store state if we see finish_reason (also recording its value)
  else if chunkHasFinish chunk then
    (false, { ctx1 with
                has_finish_reason_flag := true
                stored_finish_reason :=
                  chunk.choices.findSome? (fun choice => choice.finish_reason) })
  else (false, ctx1)

/-- Detector state after processing a list of chunks in order. -/
def runDetector : List ProviderStreamChunk → DetectorCtx → DetectorCtx
  | [], ctx => ctx
  | chunk :: rest, ctx => runDetector rest (isFinalChunk chunk ctx).2

/-- Every chunk of the list, processed in order from `ctx`, is classified
non-terminal.  This is the situation of the part of a stream that the
completion stage has consumed without stopping. -/
def noneFinal : List ProviderStreamChunk → DetectorCtx → Bool
  | [], _ => true
  | chunk :: rest, ctx =>
    !(isFinalChunk chunk ctx).1 && noneFinal rest (isFinalChunk chunk ctx).2

lemma isFinalChunk_fst (chunk : ProviderStreamChunk) (ctx : DetectorCtx) :
    (isFinalChunk chunk ctx).1 =
      ((chunkHasFinish chunk && chunkHasUsage chunk) ||
       (chunkHasUsage chunk && ctx.has_finish_reason_flag)) := by
  unfold isFinalChunk
  cases hu : chunkHasUsage chunk <;> cases hf : chunkHasFinish chunk <;>
    cases hfl : ctx.has_finish_reason_flag <;> simp [hfl]

lemma isFinalChunk_flag_of_not_final (chunk : ProviderStreamChunk)
    (ctx : DetectorCtx) (h : (isFinalChunk chunk ctx).1 = false) :
    (isFinalChunk chunk ctx).2.has_finish_reason_flag =
      (ctx.has_finish_reason_flag || chunkHasFinish chunk) := by
  rw [isFinalChunk_fst] at h
  unfold isFinalChunk
  cases hu : chunkHasUsage chunk <;> cases hf : chunkHasFinish chunk <;>
    simp [hu, hf] at h ⊢ <;> simp [h]

lemma runDetector_flag (chunks : List ProviderStreamChunk) :
    ∀ ctx : DetectorCtx, noneFinal chunks ctx = true →
      (runDetector chunks ctx).has_finish_reason_flag =
        (ctx.has_finish_reason_flag || chunks.any chunkHasFinish) := by
  induction chunks with
  | nil => intro ctx _; simp [runDetector, List.any_nil]
  | cons chunk rest ih =>
    intro ctx h
    unfold noneFinal at h
    rw [Bool.and_eq_true, Bool.not_eq_true'] at h
    rw [runDetector, ih _ h.2, isFinalChunk_flag_of_not_final chunk ctx h.1,
      List.any_cons]
    cases ctx.has_finish_reason_flag <;> cases chunkHasFinish chunk <;>
      cases rest.any chunkHasFinish <;> rfl

/-- C1: over a stream whose already-processed part produced no terminal
chunk, `_is_final_chunk` classifies the next chunk as terminal iff it
carries usage and either carries a non-null finish_reason itself or some
earlier chunk did; a chunk without usage (in particular one carrying only a
finish_reason) is never terminal. -/
theorem terminal_detector_characterization
    (processed : List ProviderStreamChunk) (chunk : ProviderStreamChunk)
    (h : noneFinal processed DetectorCtx.init = true) :
    ((isFinalChunk chunk (runDetector processed DetectorCtx.init)).1 = true ↔
      chunkHasUsage chunk = true ∧
        (chunkHasFinish chunk = true ∨
          ∃ p ∈ processed, chunkHasFinish p = true)) ∧
    (chunkHasUsage chunk = false →
      (isFinalChunk chunk (runDetector processed DetectorCtx.init)).1 = false) := by
  have hflag := runDetector_flag processed DetectorCtx.init h
  rw [show DetectorCtx.init.has_finish_reason_flag = false from rfl,
    Bool.false_or] at hflag
  constructor
  · rw [isFinalChunk_fst, hflag]
    cases hu : chunkHasUsage chunk <;> cases hf : chunkHasFinish chunk <;>
      simp [List.any_eq_true]
  · intro hu
    rw [isFinalChunk_fst, hu]
    simp

/-- Sample chunk carrying only a finish_reason. -/
def sampleFinishChunk : ProviderStreamChunk :=
  { id := "chunk-1", created := 1
    choices := [{ index := 0, finish_reason := some "stop" }] }

/-- Sample chunk carrying only usage. -/
def sampleUsageChunk : ProviderStreamChunk :=
  { id := "chunk-2", created := 2
    choices := [{ index := 0, delta := some { content := some "" } }]
    usage := some { prompt_tokens := 3, completion_tokens := 4, total_tokens := 7 } }

/-- C1 witness: a finish-only chunk followed by a usage-only chunk makes the
second chunk terminal. -/
theorem terminal_detector_characterization_witness :
    (isFinalChunk sampleUsageChunk
      (runDetector [sampleFinishChunk] DetectorCtx.init)).1 = true := by
  exact (terminal_detector_characterization [sampleFinishChunk] sampleUsageChunk
    (by decide)).1.mpr ⟨by decide, Or.inr ⟨sampleFinishChunk, by simp, by decide⟩⟩

/-! ### Model-id normalization (`ProviderManager.normalize_model_id`)

Model ids are embedded as lists of Unicode code points (`List Nat`);
`str.lower` is embedded at the ASCII level (code points 65..90 shift by 32).
Code point 32 is the space, 45 the hyphen. -/

/-- One code point of `model_id.lower()` (ASCII range). -/
def pyLower (c : Nat) : Nat :=
  if 65 ≤ c ∧ c ≤ 90 then c + 32 else c

/-- One code point of `normalized.replace(" ", "-")`. -/
def spaceToHyphen (c : Nat) : Nat :=
  if c = 32 then 45 else c

/-- `"--" in normalized`. -/
def hasDoubleHyphen : List Nat → Bool
  | 45 :: 45 :: _ => true
  | _ :: rest => hasDoubleHyphen rest
  | [] => false

/-- One pass of `normalized.replace("--", "-")`: left-to-right,
non-overlapping. -/
def replaceDoubleHyphenOnce : List Nat → List Nat
  | 45 :: 45 :: rest => 45 :: replaceDoubleHyphenOnce rest
  | c :: rest => c :: replaceDoubleHyphenOnce rest
  | [] => []

lemma replaceDoubleHyphenOnce_length_le (s : List Nat) :
    (replaceDoubleHyphenOnce s).length ≤ s.length := by
  induction s using replaceDoubleHyphenOnce.induct <;>
    simp [replaceDoubleHyphenOnce] <;> omega

lemma replaceDoubleHyphenOnce_length_lt (s : List Nat)
    (h : hasDoubleHyphen s = true) :
    (replaceDoubleHyphenOnce s).length < s.length := by
  induction s using replaceDoubleHyphenOnce.induct with
  | case1 rest =>
    have := replaceDoubleHyphenOnce_length_le rest
    simp [replaceDoubleHyphenOnce]
    omega
  | case2 c rest hne ih =>
    rw [replaceDoubleHyphenOnce.eq_2 c rest hne]
    rw [hasDoubleHyphen.eq_2 c rest hne] at h
    have := ih h
    simp only [List.length_cons]
    omega
  | case3 => simp [hasDoubleHyphen] at h

/-- `while "--" in normalized: normalized = normalized.replace("--", "-")`. -/
def collapseHyphens (s : List Nat) : List Nat :=
  if h : hasDoubleHyphen s = true then collapseHyphens (replaceDoubleHyphenOnce s)
  else s
termination_by s.length
decreasing_by exact replaceDoubleHyphenOnce_length_lt s h

/-- `normalized.strip("-")`. -/
def stripHyphens (s : List Nat) : List Nat :=
  List.rdropWhile (fun c => c == 45) (s.dropWhile (fun c => c == 45))

/-- `ProviderManager.normalize_model_id`: lowercase, spaces to hyphens,
collapse hyphen runs, strip boundary hyphens. -/
def normalizeModelId (model_id : List Nat) : List Nat :=
  stripHyphens (collapseHyphens ((model_id.map pyLower).map spaceToHyphen))

lemma hasDoubleHyphen_cons_of (c : Nat) (rest : List Nat)
    (h : hasDoubleHyphen rest = true) : hasDoubleHyphen (c :: rest) = true := by
  by_cases hmatch : c = 45 ∧ ∃ t, rest = 45 :: t
  · obtain ⟨hc, t, ht⟩ := hmatch
    subst hc; subst ht; rfl
  · have hne : ∀ tail, c = 45 → rest = 45 :: tail → False := by
      intro tail hc ht
      exact hmatch ⟨hc, tail, ht⟩
    rw [hasDoubleHyphen.eq_2 c rest hne]
    exact h

lemma hasDoubleHyphen_append_left (a b : List Nat)
    (h : hasDoubleHyphen a = true) : hasDoubleHyphen (a ++ b) = true := by
  induction a using hasDoubleHyphen.induct with
  | case1 t => exact rfl
  | case2 c rest hne ih =>
    rw [hasDoubleHyphen.eq_2 c rest hne] at h
    exact hasDoubleHyphen_cons_of _ _ (ih h)
  | case3 => simp [hasDoubleHyphen] at h

lemma hasDoubleHyphen_append_right (a b : List Nat)
    (h : hasDoubleHyphen b = true) : hasDoubleHyphen (a ++ b) = true := by
  induction a with
  | nil => exact h
  | cons c a ih => exact hasDoubleHyphen_cons_of _ _ ih

lemma hasDoubleHyphen_collapseHyphens (s : List Nat) :
    hasDoubleHyphen (collapseHyphens s) = false := by
  induction s using collapseHyphens.induct with
  | case1 s h ih =>
    rw [collapseHyphens, dif_pos h]
    exact ih
  | case2 s h =>
    rw [collapseHyphens, dif_neg h]
    exact Bool.not_eq_true _ ▸ eq_false_of_ne_true h

lemma collapseHyphens_eq_self (s : List Nat) (h : hasDoubleHyphen s = false) :
    collapseHyphens s = s := by
  rw [collapseHyphens]
  simp [h]

lemma mem_replaceDoubleHyphenOnce (c : Nat) (s : List Nat)
    (h : c ∈ replaceDoubleHyphenOnce s) : c ∈ s := by
  induction s using replaceDoubleHyphenOnce.induct with
  | case1 rest ih =>
    simp only [replaceDoubleHyphenOnce, List.mem_cons] at h ⊢
    rcases h with h | h
    · exact Or.inl h
    · exact Or.inr (Or.inr (ih h))
  | case2 d rest hne ih =>
    rw [replaceDoubleHyphenOnce.eq_2 d rest hne] at h
    simp only [List.mem_cons] at h ⊢
    rcases h with h | h
    · exact Or.inl h
    · exact Or.inr (ih h)
  | case3 => simpa [replaceDoubleHyphenOnce] using h

lemma mem_collapseHyphens (c : Nat) (s : List Nat)
    (h : c ∈ collapseHyphens s) : c ∈ s := by
  induction s using collapseHyphens.induct with
  | case1 s hd ih =>
    rw [collapseHyphens, dif_pos hd] at h
    exact mem_replaceDoubleHyphenOnce c s (ih h)
  | case2 s hd =>
    rw [collapseHyphens, dif_neg hd] at h
    exact h

lemma map_eq_self_of_mem {f : Nat → Nat} :
    ∀ l : List Nat, (∀ c ∈ l, f c = c) → l.map f = l := by
  intro l
  induction l with
  | nil => intro _; rfl
  | cons a l ih =>
    intro h
    simp only [List.map_cons, h a (List.mem_cons_self a l),
      ih (fun c hc => h c (List.mem_cons_of_mem a hc))]

/-- A code point produced by the lower/space passes is fixed by both. -/
lemma settled_of_image (e : Nat) :
    pyLower (spaceToHyphen (pyLower e)) = spaceToHyphen (pyLower e) ∧
    spaceToHyphen (spaceToHyphen (pyLower e)) = spaceToHyphen (pyLower e) := by
  unfold pyLower spaceToHyphen
  split_ifs <;> omega

lemma settled_of_mem_normalize (x : List Nat) (c : Nat)
    (hc : c ∈ normalizeModelId x) :
    pyLower c = c ∧ spaceToHyphen c = c := by
  unfold normalizeModelId stripHyphens at hc
  obtain ⟨t, ht⟩ :=
    List.rdropWhile_prefix (fun c : Nat => c == 45)
      ((collapseHyphens ((x.map pyLower).map spaceToHyphen)).dropWhile
        (fun c : Nat => c == 45))
  have hmemu : c ∈ (collapseHyphens ((x.map pyLower).map spaceToHyphen)).dropWhile
      (fun c : Nat => c == 45) := by
    rw [← ht]
    exact List.mem_append_left _ hc
  have hmemt : c ∈ collapseHyphens ((x.map pyLower).map spaceToHyphen) := by
    have := List.dropWhile_sublist (l := collapseHyphens
      ((x.map pyLower).map spaceToHyphen)) (fun c : Nat => c == 45)
    exact this.mem hmemu
  have hmem0 : c ∈ (x.map pyLower).map spaceToHyphen := mem_collapseHyphens c _ hmemt
  simp only [List.mem_map] at hmem0
  obtain ⟨d, ⟨e, _, rfl⟩, rfl⟩ := hmem0
  exact settled_of_image e

lemma hasDoubleHyphen_normalize (x : List Nat) :
    hasDoubleHyphen (normalizeModelId x) = false := by
  unfold normalizeModelId stripHyphens
  have h0 : hasDoubleHyphen (collapseHyphens ((x.map pyLower).map spaceToHyphen)) =
      false := hasDoubleHyphen_collapseHyphens _
  have h1 : hasDoubleHyphen ((collapseHyphens
      ((x.map pyLower).map spaceToHyphen)).dropWhile (fun c : Nat => c == 45)) =
      false := by
    rcases h : hasDoubleHyphen ((collapseHyphens
      ((x.map pyLower).map spaceToHyphen)).dropWhile (fun c : Nat => c == 45)) with _ | _
    · rfl
    · rw [← List.takeWhile_append_dropWhile (p := fun c : Nat => c == 45)
        (l := collapseHyphens ((x.map pyLower).map spaceToHyphen))] at h0
      rw [hasDoubleHyphen_append_right _ _ h] at h0
      exact h0
  obtain ⟨t, ht⟩ :=
    List.rdropWhile_prefix (fun c : Nat => c == 45)
      ((collapseHyphens ((x.map pyLower).map spaceToHyphen)).dropWhile
        (fun c : Nat => c == 45))
  rcases h : hasDoubleHyphen (List.rdropWhile (fun c : Nat => c == 45)
      ((collapseHyphens ((x.map pyLower).map spaceToHyphen)).dropWhile
        (fun c : Nat => c == 45))) with _ | _
  · rfl
  · rw [← ht, hasDoubleHyphen_append_left _ _ h] at h1
    exact h1

lemma dropWhile_hyphen_normalize (x : List Nat) :
    (normalizeModelId x).dropWhile (fun c : Nat => c == 45) = normalizeModelId x := by
  unfold normalizeModelId stripHyphens
  have hu : (( collapseHyphens ((x.map pyLower).map spaceToHyphen)).dropWhile
      (fun c : Nat => c == 45)).dropWhile (fun c : Nat => c == 45) =
      (collapseHyphens ((x.map pyLower).map spaceToHyphen)).dropWhile
        (fun c : Nat => c == 45) := List.dropWhile_idempotent _ _
  obtain ⟨t, ht⟩ :=
    List.rdropWhile_prefix (fun c : Nat => c == 45)
      ((collapseHyphens ((x.map pyLower).map spaceToHyphen)).dropWhile
        (fun c : Nat => c == 45))
  rcases hy : List.rdropWhile (fun c : Nat => c == 45)
      ((collapseHyphens ((x.map pyLower).map spaceToHyphen)).dropWhile
        (fun c : Nat => c == 45)) with _ | ⟨a, y⟩
  · rfl
  · rw [hy] at ht
    rw [← ht] at hu
    have ha : ¬ ((fun c : Nat => c == 45) a = true) := by
      have h0 := (List.dropWhile_eq_self_iff).mp hu (by simp)
      simpa using h0
    exact List.dropWhile_cons_of_neg ha

/-- C7: model-id normalization is idempotent: for every input string,
normalizing twice gives the same result as normalizing once. -/
theorem normalizeModelId_idempotent (x : List Nat) :
    normalizeModelId (normalizeModelId x) = normalizeModelId x := by
  have hmap1 : (normalizeModelId x).map pyLower = normalizeModelId x :=
    map_eq_self_of_mem _ (fun c hc => (settled_of_mem_normalize x c hc).1)
  have hmap2 : (normalizeModelId x).map spaceToHyphen = normalizeModelId x :=
    map_eq_self_of_mem _ (fun c hc => (settled_of_mem_normalize x c hc).2)
  have hcoll : collapseHyphens (normalizeModelId x) = normalizeModelId x :=
    collapseHyphens_eq_self _ (hasDoubleHyphen_normalize x)
  conv_lhs => rw [normalizeModelId]
  rw [hmap1, hmap2, hcoll]
  rw [stripHyphens, dropWhile_hyphen_normalize]
  have : normalizeModelId x =
      List.rdropWhile (fun c : Nat => c == 45)
        ((collapseHyphens ((x.map pyLower).map spaceToHyphen)).dropWhile
          (fun c : Nat => c == 45)) := rfl
  rw [this, List.rdropWhile_idempotent]

/-! ### GigaChat finish-reason dialect mappings -/

/-- `GigaChatCompletionsRoutes._map_finish_reason`: internal finish reason to
the GigaChat dialect on the way out. -/
def mapFinishReasonToGigaChat (finish_reason : Option String) : String :=
  if finish_reason = some "tool_calls" then "function_call"
  else
    match finish_reason with
    | some s => if s = "" then "stop" else s
    | none => "stop"

/-- The finish-reason mapping of
`GigaChatMapper._map_gigachat_stream_chunk`: `function_call` from the wire
becomes `tool_calls` internally, all other values pass through. -/
def mapGigaChatWireFinishReason (finish_reason : Option String) : Option String :=
  if finish_reason = some "function_call" then some "tool_calls" else finish_reason

/-- Dialect round trip: internal value out to the GigaChat dialect, then back
through the wire-chunk mapping. -/
def gigaChatFinishReasonRoundTrip (finish_reason : Option String) : Option String :=
  mapGigaChatWireFinishReason (some (mapFinishReasonToGigaChat finish_reason))

/-- C8 counterexample: the round trip is not the identity at
`"function_call"`: the outbound map leaves it unchanged and the inbound map
turns it into `"tool_calls"`. -/
theorem gigaChatFinishReasonRoundTrip_not_id :
    gigaChatFinishReasonRoundTrip (some "function_call") ≠ some "function_call" := by
  decide

/-- C8 (amended): the finish-reason round trip is the identity on every
non-null value other than `"function_call"` and the empty string, and a null
finish reason comes back as `"stop"`. -/
theorem gigaChatFinishReasonRoundTrip_id (s : String)
    (h1 : s ≠ "function_call") (h2 : s ≠ "") :
    gigaChatFinishReasonRoundTrip (some s) = some s ∧
    gigaChatFinishReasonRoundTrip none = some "stop" := by
  constructor
  · by_cases hs : s = "tool_calls"
    · subst hs; decide
    · simp [gigaChatFinishReasonRoundTrip, mapFinishReasonToGigaChat,
        mapGigaChatWireFinishReason, hs, h1, h2]
  · decide

/-- C8 witness: the round trip is the identity at `"length"`. -/
theorem gigaChatFinishReasonRoundTrip_id_witness :
    gigaChatFinishReasonRoundTrip (some "length") = some "length" :=
  (gigaChatFinishReasonRoundTrip_id "length" (by decide) (by decide)).1

/-! ### Non-streaming assembly (`CompletionHandler._assemble_response_from_chunks`)

The accumulator mirrors the local variables of the Python loop; Python
truthiness of an optional string (`if choice.finish_reason:`) is non-null and
non-empty. -/

/-- Truthiness of an optional string in Python (`if s:`). -/
def pyTruthyStr : Option String → Bool
  | none => false
  | some s => s != ""

/-- `CompletionHandler._create_base_tool_call`: copy id and type, keep the
`function` member only for calls of type `"function"`. -/
def createBaseToolCall (tc : MessageToolCall) : MessageToolCall :=
  { id := tc.id, type := tc.type
    function := if tc.type == "function" then tc.function else none }

/-- Concatenate the incoming arguments onto an existing tool call. -/
def appendToolCallArgs (existing tc : MessageToolCall) : MessageToolCall :=
  match existing.function, tc.function with
  | some f, some g =>
    { existing with function := some { f with arguments := f.arguments ++ g.arguments } }
  | _, _ => existing

/-- `CompletionHandler._update_tool_calls_dict`: insert a new id at the end,
or concatenate arguments onto an existing function call. -/
def updateToolCallsDict (dict : List (String × MessageToolCall))
    (tc : MessageToolCall) : List (String × MessageToolCall) :=
  if (dict.lookup tc.id).isSome then
    if tc.type == "function" && tc.function.isSome then
      dict.map (fun kv => if kv.1 == tc.id then (kv.1, appendToolCallArgs kv.2 tc) else kv)
    else dict
  else dict ++ [(tc.id, createBaseToolCall tc)]

/-- The local accumulator of `_assemble_response_from_chunks`. -/
structure AssembleState where
  full_content : String
  full_reasoning : String
  role : Option String
  usage : Option Usage
  finish_reason : Option String
  tool_calls_dict : List (String × MessageToolCall)
deriving DecidableEq, Repr

def AssembleState.init : AssembleState :=
  { full_content := ""
    full_reasoning := ""
    role := none
    usage := none
    finish_reason := none
    tool_calls_dict := [] }

/-- The `if choice.delta:` body of the assembly loop. -/
def applyDelta (st : AssembleState) (delta : Option DeltaMessage) : AssembleState :=
  match delta with
  | none => st
  | some d =>
    let st := if pyTruthyStr d.role then { st with role := d.role } else st
    let st := if pyTruthyStr d.content then
        { st with full_content := st.full_content ++ d.content.getD "" }
      else st
    let st := if pyTruthyStr d.reasoning then
        { st with full_reasoning := st.full_reasoning ++ d.reasoning.getD "" }
      else st
    match d.tool_calls with
    | some tcs =>
      if tcs != [] then
        { st with tool_calls_dict := tcs.foldl updateToolCallsDict st.tool_calls_dict }
      else st
    | none => st

/-- `if choice.finish_reason: finish_reason = choice.finish_reason`. -/
def applyFinishReason (st : AssembleState) (fr : Option String) : AssembleState :=
  if pyTruthyStr fr then { st with finish_reason := fr } else st

/-- One choice of the assembly loop: delta accumulation then finish_reason. -/
def assembleChoiceStep (st : AssembleState) (choice : StreamChoice) : AssembleState :=
  applyFinishReason (applyDelta st choice.delta) choice.finish_reason

/-- One chunk of the assembly loop: all choices, then `if chunk.usage:`. -/
def assembleChunkStep (st : AssembleState) (chunk : ProviderStreamChunk) : AssembleState :=
  let st1 := chunk.choices.foldl assembleChoiceStep st
  if chunk.usage.isSome then { st1 with usage := chunk.usage } else st1

/-- `CompletionHandler._assemble_response_from_chunks`, up to the point where
the accumulated values are packed into the single `ProviderResponse` (whose
sole choice carries `finish_reason` from the accumulator). -/
def assembleFromChunks (chunks : List ProviderStreamChunk) : AssembleState :=
  chunks.foldl assembleChunkStep AssembleState.init

/-- The truthy (non-null, non-empty) finish_reason values of a chunk
sequence, in processing order. -/
def truthyFinishReasons (chunks : List ProviderStreamChunk) : List String :=
  (chunks.map (fun chunk => chunk.choices.filterMap
    (fun choice => match choice.finish_reason with
      | some s => if s != "" then some s else none
      | none => none))).flatten

lemma applyDelta_finish_reason (st : AssembleState) (delta : Option DeltaMessage) :
    (applyDelta st delta).finish_reason = st.finish_reason := by
  cases delta with
  | none => rfl
  | some d =>
    simp only [applyDelta]
    split <;> split_ifs <;> rfl

lemma assembleChoiceStep_finish_reason (st : AssembleState) (choice : StreamChoice) :
    (assembleChoiceStep st choice).finish_reason =
      if pyTruthyStr choice.finish_reason then choice.finish_reason
      else st.finish_reason := by
  simp only [assembleChoiceStep, applyFinishReason]
  split_ifs <;> simp [applyDelta_finish_reason]

lemma choiceFold_finish_reason (choices : List StreamChoice) :
    ∀ st : AssembleState,
      (choices.foldl assembleChoiceStep st).finish_reason =
        (choices.filterMap (fun choice => match choice.finish_reason with
          | some s => if s != "" then some s else none
          | none => none)).foldl (fun _ s => some s) st.finish_reason := by
  induction choices with
  | nil => intro st; rfl
  | cons choice rest ih =>
    intro st
    rw [List.foldl_cons, ih, List.filterMap_cons]
    rcases hfr : choice.finish_reason with _ | s
    · rw [show (assembleChoiceStep st choice).finish_reason = st.finish_reason by
        rw [assembleChoiceStep_finish_reason, hfr]; rfl]
    · by_cases hs : s = ""
      · subst hs
        rw [show (assembleChoiceStep st choice).finish_reason = st.finish_reason by
          rw [assembleChoiceStep_finish_reason, hfr]; rfl]
        simp
      · have hs2 : (s != "") = true := by simpa using hs
        rw [show (assembleChoiceStep st choice).finish_reason = some s by
          rw [assembleChoiceStep_finish_reason, hfr]
          simp [pyTruthyStr, hs2]]
        simp [hs2, List.foldl_cons]

lemma assembleChunkStep_finish_reason (st : AssembleState) (chunk : ProviderStreamChunk) :
    (assembleChunkStep st chunk).finish_reason =
      (chunk.choices.foldl assembleChoiceStep st).finish_reason := by
  simp only [assembleChunkStep]
  split_ifs <;> rfl

lemma foldl_keep_last (l : List String) :
    ∀ a0 : Option String, l.foldl (fun _ s => some s) a0 =
      match l.getLast? with
      | some s => some s
      | none => a0 := by
  induction l with
  | nil => intro a0; rfl
  | cons s rest ih =>
    intro a0
    rw [List.foldl_cons, ih]
    cases rest with
    | nil => rfl
    | cons b t =>
      rw [List.getLast?_cons_cons]
      cases h : (b :: t).getLast? with
      | none => exact absurd (List.getLast?_eq_none_iff.mp h) (by simp)
      | some c => rfl

lemma chunkFold_finish_reason (chunks : List ProviderStreamChunk) :
    ∀ st : AssembleState,
      (chunks.foldl assembleChunkStep st).finish_reason =
        (truthyFinishReasons chunks).foldl (fun _ s => some s) st.finish_reason := by
  induction chunks with
  | nil => intro st; rfl
  | cons chunk rest ih =>
    intro st
    rw [List.foldl_cons, ih, assembleChunkStep_finish_reason, choiceFold_finish_reason]
    simp only [truthyFinishReasons, List.map_cons, List.flatten_cons, List.foldl_append]

/-- C4 counterexample: a stream whose first non-null finish_reason is
`"stop"` and whose later chunk carries `"length"` assembles to `"length"`,
not to the first-seen value. -/
theorem assemble_finish_reason_not_first_seen :
    truthyFinishReasons
        [{ id := "a", choices := [{ index := 0, finish_reason := some "stop" }] },
         { id := "b", choices := [{ index := 0, finish_reason := some "length" }] }] =
      ["stop", "length"] ∧
    (assembleFromChunks
        [{ id := "a", choices := [{ index := 0, finish_reason := some "stop" }] },
         { id := "b", choices := [{ index := 0, finish_reason := some "length" }] }]).finish_reason ≠
      some "stop" := by
  constructor
  · rfl
  · decide

/-- C4 (amended): in non-streaming mode, over any collected chunk sequence
containing at least one truthy (non-null, non-empty) finish_reason, the
assembled response carries the LAST truthy finish_reason seen (last-seen
wins). -/
theorem assembleFromChunks_finish_reason_last (chunks : List ProviderStreamChunk)
    (h : truthyFinishReasons chunks ≠ []) :
    (assembleFromChunks chunks).finish_reason =
      (truthyFinishReasons chunks).getLast? := by
  rw [assembleFromChunks, chunkFold_finish_reason, foldl_keep_last]
  cases hl : (truthyFinishReasons chunks).getLast? with
  | none => exact absurd (List.getLast?_eq_none_iff.mp hl) h
  | some s => rfl

/-! ### Yandex stream mapping (`YandexMapper._map_yandex_stream_chunk`)

Yandex streams cumulative text; the mapper keeps a `request_id →
previous_text` map (embedded as a function to `Option`), emits the suffix as
the delta, and drops the entry on a terminal status.  Texts are embedded as
`List Char`.  The construction of the tool-call payload (synthetic ids, JSON
arguments) is not needed by the verified claims and is not carried. -/

/-- The first alternative of a Yandex stream chunk: its status and the
cumulative message text. -/
structure YandexAlternative where
  status : String
  role : String := "assistant"
  text : Option (List Char) := none

/-- What the mapper emits for one chunk: the delta content of the stream
choice (`none` for the tool-call branch) and its finish_reason. -/
structure YandexChunkOut where
  delta_content : Option (List Char)
  finish_reason : Option String

/-- `YandexMapper._map_yandex_stream_chunk`: produce the outgoing choice and
the updated per-request previous-text map. -/
def mapYandexStreamChunk (request_id : String) (alt : YandexAlternative)
    (previous_text_map : String → Option (List Char)) :
    YandexChunkOut × (String → Option (List Char)) :=
  let step :=
    if alt.status = "ALTERNATIVE_STATUS_TOOL_CALLS" then
      -- Handle tool calls: finish_reason "tool_calls", no text delta
      (YandexChunkOut.mk none (some "tool_calls"), previous_text_map)
    else
      -- Handle regular text response
      let current_text := alt.text.getD []
      -- Calculate delta from previous text
      let previous_text := (previous_text_map request_id).getD []
      let delta_text :=
        if previous_text != [] && previous_text.isPrefixOf current_text then
          current_text.drop previous_text.length
        else current_text
      -- Update previous text for next chunk
      (YandexChunkOut.mk (some delta_text)
          (if alt.status = "ALTERNATIVE_STATUS_FINAL" then some "stop" else none),
        fun rid => if rid = request_id then some current_text else previous_text_map rid)
  -- Cleanup if this is the final chunk or tool calls
  let cleaned :=
    if alt.status = "ALTERNATIVE_STATUS_FINAL" ∨
        alt.status = "ALTERNATIVE_STATUS_TOOL_CALLS" then
      fun rid => if rid = request_id then none else step.2 rid
    else step.2
  (step.1, cleaned)

/-- Map a whole chunk sequence of one request, threading the previous-text
map. -/
def runYandexStream (request_id : String) :
    List YandexAlternative → (String → Option (List Char)) →
      List YandexChunkOut × (String → Option (List Char))
  | [], m => ([], m)
  | alt :: rest, m =>
    let step := mapYandexStreamChunk request_id alt m
    let restRun := runYandexStream request_id rest step.2
    (step.1 :: restRun.1, restRun.2)

lemma mapYandexStreamChunk_delta (request_id : String) (alt : YandexAlternative)
    (m : String → Option (List Char))
    (hnt : alt.status ≠ "ALTERNATIVE_STATUS_TOOL_CALLS")
    (hpre : ((m request_id).getD []).isPrefixOf (alt.text.getD []) = true) :
    ((m request_id).getD []) ++
        ((mapYandexStreamChunk request_id alt m).1.delta_content.getD []) =
      alt.text.getD [] := by
  obtain ⟨t, ht⟩ := List.isPrefixOf_iff_prefix.mp hpre
  by_cases hpt : (m request_id).getD [] = []
  · simp [mapYandexStreamChunk, hnt, hpt]
  · have hcond : (((m request_id).getD []) != [] &&
        ((m request_id).getD []).isPrefixOf (alt.text.getD [])) = true := by
      rw [hpre]
      simpa [bne_iff_ne] using hpt
    simp only [mapYandexStreamChunk, if_neg hnt, hcond, if_true, Option.getD_some]
    rw [← ht, List.drop_left]

lemma mapYandexStreamChunk_state (request_id : String) (alt : YandexAlternative)
    (m : String → Option (List Char))
    (hnt : alt.status ≠ "ALTERNATIVE_STATUS_TOOL_CALLS")
    (hnf : alt.status ≠ "ALTERNATIVE_STATUS_FINAL") :
    (mapYandexStreamChunk request_id alt m).2 request_id = some (alt.text.getD []) := by
  unfold mapYandexStreamChunk
  simp [hnt, hnf]

lemma runYandexStream_concat (request_id : String) (rest : List YandexAlternative) :
    ∀ (alt : YandexAlternative) (m : String → Option (List Char)),
      (∀ a ∈ alt :: rest, a.status ≠ "ALTERNATIVE_STATUS_TOOL_CALLS") →
      (∀ a ∈ (alt :: rest).dropLast, a.status ≠ "ALTERNATIVE_STATUS_FINAL") →
      List.Chain' (fun a b => (a.text.getD []).isPrefixOf (b.text.getD []) = true)
        (alt :: rest) →
      ((m request_id).getD []).isPrefixOf (alt.text.getD []) = true →
      ((m request_id).getD []) ++
          (((runYandexStream request_id (alt :: rest) m).1.map
            (fun o => o.delta_content.getD [])).flatten) =
        ((alt :: rest).getLast (List.cons_ne_nil alt rest)).text.getD [] := by
  induction rest with
  | nil =>
    intro alt m hnt _ _ hpre
    simp only [runYandexStream, List.map_cons, List.map_nil, List.flatten_cons,
      List.flatten_nil, List.append_nil, List.getLast_singleton]
    exact mapYandexStreamChunk_delta request_id alt m (hnt alt (by simp)) hpre
  | cons b t ih =>
    intro alt m hnt hnf hchain hpre
    have halt_nt : alt.status ≠ "ALTERNATIVE_STATUS_TOOL_CALLS" := hnt alt (by simp)
    have halt_nf : alt.status ≠ "ALTERNATIVE_STATUS_FINAL" := by
      apply hnf alt
      rw [List.dropLast_cons₂]
      exact List.mem_cons_self alt _
    have hstate := mapYandexStreamChunk_state request_id alt m halt_nt halt_nf
    have hchain2 := (List.chain'_cons).mp hchain
    have hih := ih b ((mapYandexStreamChunk request_id alt m).2)
      (fun a ha => hnt a (List.mem_cons_of_mem alt ha))
      (fun a ha => by
        apply hnf a
        rw [List.dropLast_cons₂]
        exact List.mem_cons_of_mem alt ha)
      hchain2.2
      (by rw [hstate, Option.getD_some]; exact hchain2.1)
    rw [hstate, Option.getD_some] at hih
    have hdelta := mapYandexStreamChunk_delta request_id alt m halt_nt hpre
    simp only [runYandexStream, List.map_cons, List.flatten_cons] at hih ⊢
    rw [← List.append_assoc, hdelta, hih, List.getLast_cons_cons]

/-- C2: over a Yandex stream of cumulative texts (each chunk's text extends
the previous one, only the last chunk has terminal status, no tool calls,
fresh per-request state) the concatenation of the emitted delta texts equals
the cumulative text of the last chunk; and processing any chunk with status
ALTERNATIVE_STATUS_FINAL or ALTERNATIVE_STATUS_TOOL_CALLS removes the
per-request previous-text entry. -/
theorem yandex_stream_delta_reconstruction (request_id : String)
    (alts : List YandexAlternative) (m₀ : String → Option (List Char))
    (hne : alts ≠ [])
    (hnt : ∀ a ∈ alts, a.status ≠ "ALTERNATIVE_STATUS_TOOL_CALLS")
    (hnf : ∀ a ∈ alts.dropLast, a.status ≠ "ALTERNATIVE_STATUS_FINAL")
    (hchain : List.Chain' (fun a b => (a.text.getD []).isPrefixOf (b.text.getD []) = true)
      alts)
    (hfresh : m₀ request_id = none) :
    ((((runYandexStream request_id alts m₀).1.map
        (fun o => o.delta_content.getD [])).flatten) =
      (alts.getLast hne).text.getD []) ∧
    (∀ (alt : YandexAlternative) (m : String → Option (List Char)),
      alt.status = "ALTERNATIVE_STATUS_FINAL" ∨
        alt.status = "ALTERNATIVE_STATUS_TOOL_CALLS" →
      (mapYandexStreamChunk request_id alt m).2 request_id = none) := by
  constructor
  · cases alts with
    | nil => exact absurd rfl hne
    | cons alt rest =>
      have h := runYandexStream_concat request_id rest alt m₀ hnt hnf hchain
        (by rw [hfresh]; simp)
      rw [hfresh] at h
      simpa using h
  · intro alt m hterm
    unfold mapYandexStreamChunk
    simp [hterm]

/-- C2 witness: the three-chunk stream `"He"`, `"Hello"`, `"Hello!"` with a
final terminal chunk reconstructs `"Hello!"` from its deltas. -/
theorem yandex_stream_delta_reconstruction_witness :
    (((runYandexStream "req-1"
        [{ status := "ALTERNATIVE_STATUS_PARTIAL", text := some ('H' :: ['e']) },
         { status := "ALTERNATIVE_STATUS_PARTIAL",
           text := some ('H' :: 'e' :: 'l' :: 'l' :: ['o']) },
         { status := "ALTERNATIVE_STATUS_FINAL",
           text := some ('H' :: 'e' :: 'l' :: 'l' :: 'o' :: ['!']) }]
        (fun _ => none)).1.map (fun o => o.delta_content.getD [])).flatten) =
      'H' :: 'e' :: 'l' :: 'l' :: 'o' :: ['!'] := by
  have h := yandex_stream_delta_reconstruction "req-1"
    [{ status := "ALTERNATIVE_STATUS_PARTIAL", text := some ('H' :: ['e']) },
     { status := "ALTERNATIVE_STATUS_PARTIAL",
       text := some ('H' :: 'e' :: 'l' :: 'l' :: ['o']) },
     { status := "ALTERNATIVE_STATUS_FINAL",
       text := some ('H' :: 'e' :: 'l' :: 'l' :: 'o' :: ['!']) }]
    (fun _ => none) (by simp) (by decide) (by decide)
    (by
      rw [List.chain'_cons, List.chain'_cons]
      exact ⟨by decide, by decide, List.chain'_singleton _⟩) rfl
  exact h.1

/-- C4 witness: the last-seen rule evaluated on the two-chunk stream. -/
theorem assembleFromChunks_finish_reason_last_witness :
    (assembleFromChunks
        [{ id := "w1", choices := [{ index := 0, finish_reason := some "stop" }] },
         { id := "w2", choices := [{ index := 0, finish_reason := some "length" }] }]).finish_reason =
      (truthyFinishReasons
        [{ id := "w1", choices := [{ index := 0, finish_reason := some "stop" }] },
         { id := "w2", choices := [{ index := 0, finish_reason := some "length" }] }]).getLast? :=
  assembleFromChunks_finish_reason_last _ (by decide)

/-! ### Ollama driver stream loop (`OllamaProvider.create_completion`)

The SSE lines of the upstream response are embedded after
`XRouterMapper.parse_sse_line`: a line is skipped, is the `data: [DONE]`
marker, or carries a mapped chunk. -/

/-- One parsed SSE line of the Ollama upstream stream. -/
inductive OllamaSSELine where
  | skip
  | done
  | chunk (c : ProviderStreamChunk)
deriving DecidableEq, Repr

/-- The driver instance state (`_has_finish_reason`, `_last_chunk`). -/
structure OllamaDriverState where
  has_finish_reason : Bool
  last_chunk : Option ProviderStreamChunk
deriving DecidableEq, Repr

/-- Fresh driver state as set by `OllamaProvider.__init__`. -/
def OllamaDriverState.init : OllamaDriverState :=
  { has_finish_reason := false, last_chunk := none }

/-- `OllamaProvider._is_final_chunk`: a chunk with a finish_reason is final
and is remembered on the instance. -/
def ollamaIsFinalChunk (chunk : ProviderStreamChunk) (st : OllamaDriverState) :
    Bool × OllamaDriverState :=
  if chunkHasFinish chunk then
    (true, { has_finish_reason := true, last_chunk := some chunk })
  else (false, st)

/-- The synthetic zero-usage chunk built at `[DONE]` from the remembered last
chunk (then passed through the mapper, which preserves these fields). -/
def ollamaSyntheticChunk (last : ProviderStreamChunk) : ProviderStreamChunk :=
  { id := last.id
    created := last.created
    choices := [{ index := 0
                  delta := some { role := some "assistant", content := some "" }
                  finish_reason := none }]
    usage := some { prompt_tokens := 0, completion_tokens := 0, total_tokens := 0 } }

/-- The line loop of `OllamaProvider.create_completion`: the chunks yielded
for the given parsed lines.  A skipped line continues; `[DONE]` yields the
synthetic usage chunk if a finish_reason was seen, then breaks; a final chunk
(one with a finish_reason) is yielded and the loop breaks. -/
def ollamaStreamLoop (st : OllamaDriverState) :
    List OllamaSSELine → List ProviderStreamChunk
  | [] => []
  | .skip :: rest => ollamaStreamLoop st rest
  | .done :: _ =>
    if st.has_finish_reason then
      match st.last_chunk with
      | some last => [ollamaSyntheticChunk last]
      | none => []
    else []
  | .chunk c :: rest =>
    let r := ollamaIsFinalChunk c st
    if r.1 then [c] else c :: ollamaStreamLoop r.2 rest

/-- A typical last content chunk of an Ollama stream: it carries
`finish_reason` and, as always with Ollama, no usage. -/
def ollamaFinishChunkExample : ProviderStreamChunk :=
  { id := "oll-1", created := 5
    choices := [{ index := 0
                  delta := some { role := some "assistant", content := some "" }
                  finish_reason := some "stop" }]
    usage := none }

/-- C3: on a stream consisting of a finish_reason chunk followed by
`data: [DONE]`, the driver loop breaks at the finish_reason chunk, so the
`[DONE]` line is never processed: no synthetic zero-usage chunk is yielded
and the last yielded chunk carries no usage, contradicting the documented
synthesis. -/
theorem ollama_stream_drops_synthetic_usage_chunk :
    ollamaStreamLoop OllamaDriverState.init
        [OllamaSSELine.chunk ollamaFinishChunkExample, OllamaSSELine.done] =
      [ollamaFinishChunkExample] ∧
    ollamaFinishChunkExample.usage = none ∧
    chunkHasFinish ollamaFinishChunkExample = true ∧
    ollamaStreamLoop OllamaDriverState.init [OllamaSSELine.done] = [] := by
  refine ⟨rfl, rfl, by decide, rfl⟩

/-! ### Limit-check stage (`LimitCheckHandler`)

The stage's view of the request context and the billing call outcome are
explicit; `ProviderError` raises become error values and context mutation
becomes a returned context. -/

/-- A raised `ProviderError` (code and message). -/
structure PErr where
  code : Nat
  message : String
deriving DecidableEq, Repr

/-- Expected token counts (`TokenCount`), reduced to the counts. -/
structure TokenCount where
  input : Nat
  output : Nat
  total : Nat
deriving DecidableEq, Repr

/-- The pieces of `ChatContext` the limit-check stage reads and writes. -/
structure LimitsCtx where
  api_key : String
  user_id : Option String
  provider_model : Option String
  expected_tokens : Option TokenCount
  on_hold : Option Rat
  generation_id : Option String
deriving DecidableEq, Repr

/-- Outcome of `usage_client.process_cost_with_tokens`: a response with
`amount_held` and `transaction_id`, or a raised `ProviderError`. -/
inductive BillingHoldResult where
  | ok (amount_held : Option Rat) (transaction_id : String)
  | err (e : PErr)
deriving DecidableEq, Repr

/-- `LimitCheckHandler.canHandle`; `context.api_key is not None` is always
true since the field is typed `str`. -/
def limitsCanHandle (ctx : LimitsCtx) : Bool :=
  ctx.user_id.isSome && ctx.on_hold.isNone && ctx.expected_tokens.isSome

/-- `LimitCheckHandler._check_limits`: returns the mutated context, the
raised error if any, and whether the create-hold billing call was issued. -/
def checkLimits (ctx : LimitsCtx) (billing : BillingHoldResult) :
    LimitsCtx × Option PErr × Bool :=
  if ctx.api_key == "" then
    (ctx, some ⟨400, "API key must be set in context"⟩, false)
  else if !(pyTruthyStr ctx.user_id) then
    (ctx, some ⟨400, "User ID must be set in context"⟩, false)
  else if ctx.provider_model.isNone then
    (ctx, some ⟨400, "Provider model must be set in context"⟩, false)
  else if ctx.expected_tokens.isNone then
    (ctx, some ⟨400, "Expected tokens must be set in context"⟩, false)
  else
    -- inner `try` around the billing call and the amount_held check
    let inner : LimitsCtx × Option PErr :=
      match billing with
      | .ok amount_held transaction_id =>
        let ctx := { ctx with on_hold := amount_held
                              generation_id := some transaction_id }
        -- Check if amount_held is None (error case) vs 0.0 (free model case)
        if ctx.on_hold.isNone then
          (ctx, some ⟨402, "Usage limit exceeded"⟩)
        else (ctx, none)
      | .err e => (ctx, some e)
    -- `except ProviderError as e: if e.code == 402: ...`
    match inner with
    | (ctx1, some e) =>
      if e.code = 402 then
        ({ ctx1 with on_hold := none },
          some ⟨402, "Insufficient funds for request processing"⟩, true)
      else (ctx1, some e, true)
    | (ctx1, none) => (ctx1, none, true)

/-- `LimitCheckHandler.handleRequest`: skip when `canHandle` is false,
otherwise run `_check_limits`. -/
def limitsHandleRequest (ctx : LimitsCtx) (billing : BillingHoldResult) :
    LimitsCtx × Option PErr × Bool :=
  if !(limitsCanHandle ctx) then (ctx, none, false)
  else checkLimits ctx billing

/-- C5: for a request that passes the stage's validations, a create-hold
response with `amount_held = null` raises a 402 (surfaced as the insufficient
funds message), a 402 raised by the billing call is re-raised with message
"Insufficient funds for request processing", and `amount_held = 0` completes
without error. -/
theorem limits_check_402_and_free_model (ctx : LimitsCtx)
    (hkey : (ctx.api_key == "") = false)
    (huser : pyTruthyStr ctx.user_id = true)
    (hmodel : ctx.provider_model.isNone = false)
    (htok : ctx.expected_tokens.isNone = false) :
    (∀ txid : String,
      (checkLimits ctx (.ok none txid)).2.1 =
        some ⟨402, "Insufficient funds for request processing"⟩) ∧
    (∀ msg : String,
      (checkLimits ctx (.err ⟨402, msg⟩)).2.1 =
        some ⟨402, "Insufficient funds for request processing"⟩) ∧
    (∀ txid : String, (checkLimits ctx (.ok (some 0) txid)).2.1 = none) := by
  refine ⟨fun txid => ?_, fun msg => ?_, fun txid => ?_⟩ <;>
    simp [checkLimits, hkey, huser, hmodel, htok]

/-- C5 witness: the three outcomes evaluated on a concrete context. -/
theorem limits_check_402_and_free_model_witness :
    (checkLimits
        { api_key := "key", user_id := some "user", provider_model := some "m"
          expected_tokens := some ⟨1, 2, 3⟩, on_hold := none, generation_id := none }
        (.ok none "tx-1")).2.1 =
      some ⟨402, "Insufficient funds for request processing"⟩ ∧
    (checkLimits
        { api_key := "key", user_id := some "user", provider_model := some "m"
          expected_tokens := some ⟨1, 2, 3⟩, on_hold := none, generation_id := none }
        (.ok (some 0) "tx-1")).2.1 = none := by
  have h := limits_check_402_and_free_model
    { api_key := "key", user_id := some "user", provider_model := some "m"
      expected_tokens := some ⟨1, 2, 3⟩, on_hold := none, generation_id := none }
    (by decide) (by decide) (by decide) (by decide)
  exact ⟨h.1 "tx-1", h.2.2 "tx-1"⟩

/-- C10: a context that already carries a non-null `on_hold` (any held
amount, including 0) fails `canHandle`, so the stage skips without issuing
another create-hold call; and a successful create-hold stores the returned
amount on the context. -/
theorem limits_at_most_one_hold (ctx : LimitsCtx) (billing : BillingHoldResult)
    (h : ctx.on_hold ≠ none) :
    limitsHandleRequest ctx billing = (ctx, none, false) ∧
    (∀ (ctx2 : LimitsCtx) (a : Rat) (txid : String),
      (checkLimits ctx2 (.ok (some a) txid)).2.2 = true →
      (checkLimits ctx2 (.ok (some a) txid)).1.on_hold = some a) := by
  constructor
  · have hcan : limitsCanHandle ctx = false := by
      have : ctx.on_hold.isNone = false := by
        cases hh : ctx.on_hold with
        | none => exact absurd hh h
        | some a => rfl
      simp [limitsCanHandle, this]
    simp [limitsHandleRequest, hcan]
  · intro ctx2 a txid hcalled
    unfold checkLimits at hcalled ⊢
    split_ifs at hcalled ⊢ <;> simp_all

/-- C10 witness: a context holding 0 skips and a successful hold stores the
amount. -/
theorem limits_at_most_one_hold_witness :
    limitsHandleRequest
        { api_key := "key", user_id := some "user", provider_model := some "m"
          expected_tokens := some ⟨1, 2, 3⟩, on_hold := some 0, generation_id := none }
        (.ok (some 5) "tx-2") =
      ({ api_key := "key", user_id := some "user", provider_model := some "m"
         expected_tokens := some ⟨1, 2, 3⟩, on_hold := some 0, generation_id := none },
        none, false) :=
  (limits_at_most_one_hold _ (.ok (some 5) "tx-2") (by decide)).1

/-! ### Provider resolution (`ProviderManager`)

Model ids, URLs and credentials are embedded as `List Char`.  Provider
`parameters` beyond the timeout (SSL flag, Yandex folder, proxy settings) are
not read by the verified claims and are not carried. -/

/-- The application settings the manager reads. -/
structure Settings where
  ENABLE_OPENAI_COMPATIBLE_API : Bool
  ENABLE_XROUTER : Bool
  ENABLE_AGENTS : Bool
  ENABLE_DEEPSEEK : Bool
  ENABLE_OPENROUTER : Bool
  ENABLE_OPENROUTER_PROXY : Bool
  ENABLE_GIGACHAT : Bool
  ENABLE_YANDEX : Bool
  ENABLE_OLLAMA : Bool
  ENABLE_ZAI : Bool
  XROUTER_API_KEY : List Char := []
  AGENTS_API_KEY : List Char := []
  DEEPSEEK_API_KEY : List Char := []
  OPENROUTER_API_KEY : List Char := []
  YANDEX_API_KEY : List Char := []
  GIGACHAT_API_KEY : List Char := []
  GIGACHAT_LOGIN : List Char := []
  GIGACHAT_PASSWORD : List Char := []
  ZAI_API_KEY : List Char := []
  XROUTER_BASE_URL : List Char := []
  AGENTS_BASE_URL : List Char := []
  DEEPSEEK_BASE_URL : List Char := []
  OPENROUTER_BASE_URL : List Char := []
  GIGACHAT_BASE_URL : List Char := []
  YANDEX_BASE_URL : List Char := []
  ZAI_BASE_URL : List Char := []
  OLLAMA_BASE_URLS : List Char := []
  OLLAMA_API_KEYS : List Char := []
  PROVIDER_TIMEOUT : Nat := 0

/-- A provider binding (`ProviderConfig`), with the timeout as the one
carried parameter. -/
structure ProviderConfig where
  provider_id : List Char
  name : List Char
  credentials : List Char
  base_url : List Char
  timeout : Nat
deriving DecidableEq, Repr

/-- `ProviderManager._is_provider_enabled`: the static feature-toggle map;
unknown aliases default to disabled. -/
def isProviderEnabled (s : Settings) (provider_alias : List Char) : Bool :=
  if provider_alias = "xrouter".toList then s.ENABLE_XROUTER
  else if provider_alias = "agents".toList then s.ENABLE_AGENTS
  else if provider_alias = "deepseek".toList then s.ENABLE_DEEPSEEK
  else if provider_alias = "openrouter".toList then s.ENABLE_OPENROUTER
  else if provider_alias = "openrouter-proxy".toList then s.ENABLE_OPENROUTER_PROXY
  else if provider_alias = "gigachat".toList then s.ENABLE_GIGACHAT
  else if provider_alias = "yandex".toList then s.ENABLE_YANDEX
  else if provider_alias = "ollama".toList then s.ENABLE_OLLAMA
  else if provider_alias = "zai".toList then s.ENABLE_ZAI
  else false

/-- `ProviderManager._get_credentials_from_settings`. -/
def getCredentialsFromSettings (s : Settings) (provider_alias : List Char) : List Char :=
  if provider_alias = "xrouter".toList then s.XROUTER_API_KEY
  else if provider_alias = "agents".toList then s.AGENTS_API_KEY
  else if provider_alias = "deepseek".toList then s.DEEPSEEK_API_KEY
  else if provider_alias = "openrouter".toList then s.OPENROUTER_API_KEY
  else if provider_alias = "openrouter-proxy".toList then s.OPENROUTER_API_KEY
  else if provider_alias = "yandex".toList then s.YANDEX_API_KEY
  else if provider_alias = "gigachat".toList then
    (if s.GIGACHAT_API_KEY != [] then s.GIGACHAT_API_KEY
     else if s.GIGACHAT_LOGIN != [] && s.GIGACHAT_PASSWORD != [] then
       s.GIGACHAT_LOGIN ++ ':' :: s.GIGACHAT_PASSWORD
     else [])
  else if provider_alias = "zai".toList then s.ZAI_API_KEY
  else []

/-- `ProviderManager._get_base_url_from_settings`. -/
def getBaseUrlFromSettings (s : Settings) (provider_alias : List Char) : List Char :=
  if provider_alias = "xrouter".toList then s.XROUTER_BASE_URL
  else if provider_alias = "agents".toList then s.AGENTS_BASE_URL
  else if provider_alias = "deepseek".toList then s.DEEPSEEK_BASE_URL
  else if provider_alias = "openrouter".toList then s.OPENROUTER_BASE_URL
  else if provider_alias = "openrouter-proxy".toList then s.OPENROUTER_BASE_URL
  else if provider_alias = "gigachat".toList then s.GIGACHAT_BASE_URL
  else if provider_alias = "yandex".toList then s.YANDEX_BASE_URL
  else if provider_alias = "zai".toList then s.ZAI_BASE_URL
  else []

/-- `PROVIDER_NAMES` with the `.capitalize` fallback abstracted as the alias
itself (never reached by the verified claims). -/
def providerDisplayName (provider_alias : List Char) : List Char :=
  if provider_alias = "xrouter".toList then "XRouter".toList
  else if provider_alias = "agents".toList then "Agents".toList
  else if provider_alias = "deepseek".toList then "Deepseek".toList
  else if provider_alias = "openrouter".toList then "OpenRouter".toList
  else if provider_alias = "openrouter-proxy".toList then "OpenRouterProxy".toList
  else if provider_alias = "gigachat".toList then "GigaChat".toList
  else if provider_alias = "yandex".toList then "Yandex".toList
  else if provider_alias = "ollama".toList then "Ollama".toList
  else if provider_alias = "zai".toList then "Z.AI".toList
  else provider_alias

/-- `ProviderManager._create_provider_config_from_settings`. -/
def createProviderConfigFromSettings (s : Settings) (provider_alias : List Char) :
    ProviderConfig :=
  { provider_id := provider_alias
    name := providerDisplayName provider_alias
    credentials := getCredentialsFromSettings s provider_alias
    base_url := getBaseUrlFromSettings s provider_alias
    timeout := s.PROVIDER_TIMEOUT }

/-- `ProviderManager._get_provider_by_alias`: 403 when disabled, else the
config from settings. -/
def getProviderByAlias (s : Settings) (provider_alias : List Char) :
    Except PErr ProviderConfig :=
  if !(isProviderEnabled s provider_alias) then
    .error ⟨403, "Provider is disabled by feature toggle"⟩
  else .ok (createProviderConfigFromSettings s provider_alias)

/-- Split a string at every `;` (Python `str.split(";")`). -/
def splitSemi : List Char → List (List Char)
  | [] => [[]]
  | c :: rest =>
    if c = ';' then [] :: splitSemi rest
    else
      match splitSemi rest with
      | part :: parts => (c :: part) :: parts
      | [] => [[c]]

/-- Python `str.strip()`: drop surrounding whitespace. -/
def trimWs (l : List Char) : List Char :=
  List.rdropWhile (fun c => c == ' ' || c == '\t' || c == '\n' || c == '\r')
    (l.dropWhile (fun c => c == ' ' || c == '\t' || c == '\n' || c == '\r'))

/-- `ProviderManager._parse_ollama_urls_and_keys`: semicolon-separated URL
and API-key lists, keys padded with empty strings. -/
def parseOllamaUrlsAndKeys (s : Settings) : List (List Char × List Char) :=
  let urls := if s.OLLAMA_BASE_URLS != [] then (splitSemi s.OLLAMA_BASE_URLS).map trimWs
    else []
  let api_keys := if s.OLLAMA_API_KEYS != [] then (splitSemi s.OLLAMA_API_KEYS).map trimWs
    else []
  let api_keys :=
    if api_keys = [] then urls.map (fun _ => ([] : List Char))
    else if api_keys.length < urls.length then
      api_keys ++ List.replicate (urls.length - api_keys.length) []
    else api_keys
  urls.zip api_keys

/-- Prepend `http://` when the server part carries no scheme
(`_parse_ollama_model_id`). -/
def addHttpScheme (server : List Char) : List Char :=
  if "http://".toList.isPrefixOf server || "https://".toList.isPrefixOf server then server
  else "http://".toList ++ server

/-- The `netloc` of `urllib.parse.urlparse` for http(s) URLs: the run after
the scheme up to `/`, `?` or `#`. -/
def netlocOf (url : List Char) : List Char :=
  if "http://".toList.isPrefixOf url then
    (url.drop "http://".toList.length).takeWhile
      (fun c => c != '/' && c != '?' && c != '#')
  else if "https://".toList.isPrefixOf url then
    (url.drop "https://".toList.length).takeWhile
      (fun c => c != '/' && c != '?' && c != '#')
  else []

/-- `ProviderManager._parse_ollama_model_id`: match
`^ollama@([^/]+)/(.+)$`, add the scheme, and validate the URL. -/
def parseOllamaModelId (external_model_id : List Char) :
    Except PErr (List Char × List Char) :=
  if "ollama@".toList.isPrefixOf external_model_id then
    let rest := external_model_id.drop "ollama@".toList.length
    let server := rest.takeWhile (fun c => c != '/')
    -- the dropWhile result is empty or starts with the matched '/'
    match rest.dropWhile (fun c => c != '/') with
    | _ :: model_id =>
      if server = [] ∨ model_id = [] then
        .error ⟨400, "Invalid Ollama model ID format"⟩
      else
        let server_url := addHttpScheme server
        if netlocOf server_url = [] then
          .error ⟨400, "Invalid server URL in model ID"⟩
        else .ok (server_url, model_id)
    | [] => .error ⟨400, "Invalid Ollama model ID format"⟩
  else .error ⟨400, "Invalid Ollama model ID format"⟩

/-- `ProviderManager.get_provider_by_model_id` (LLM Gateway path plus the
OpenAI-compatible shortcut). -/
def getProviderByModelId (s : Settings) (external_model_id : List Char) :
    Except PErr (ProviderConfig × List Char) :=
  -- For OpenAI compatible API, always use agents provider
  if s.ENABLE_OPENAI_COMPATIBLE_API then
    match getProviderByAlias s "agents".toList with
    | .error e => .error e
    | .ok cfg => .ok (cfg, external_model_id)
  else
    -- For LLM Gateway API, parse provider from model ID
    let parsed : Except PErr (Option (List Char) × List Char × List Char) :=
      if external_model_id.contains '@' then
        match parseOllamaModelId external_model_id with
        | .error e => .error e
        | .ok (server_url, model_id) => .ok (some server_url, "ollama".toList, model_id)
      else if external_model_id.contains '/' then
        .ok (none, external_model_id.takeWhile (fun c => c != '/'),
          (external_model_id.dropWhile (fun c => c != '/')).tail)
      else .error ⟨400, "Invalid model ID format"⟩
    match parsed with
    | .error e => .error e
    | .ok (server_url?, provider_alias, model_id) =>
      if !(isProviderEnabled s provider_alias) then
        .error ⟨403, "Provider is disabled by feature toggle"⟩
      else if provider_alias = "ollama".toList then
        match server_url? with
        | some server_url =>
          -- Find matching API key for the server URL
          let api_key :=
            match (parseOllamaUrlsAndKeys s).find? (fun pr => pr.1 == server_url) with
            | some pr => pr.2
            | none => []
          .ok ({ provider_id := "ollama".toList
                 name := "Ollama".toList
                 credentials := api_key
                 base_url := server_url
                 timeout := s.PROVIDER_TIMEOUT }, model_id)
        | none =>
          -- `server_url` is unbound on this path; the NameError is caught by
          -- the generic handler and surfaced as a 500
          .error ⟨500, "Error while looking up provider"⟩
      else
        match getProviderByAlias s provider_alias with
        | .error e => .error e
        | .ok cfg => .ok (cfg, model_id)

/-- Settings with every provider toggle on and the gateway dialect active. -/
def allEnabledSettings : Settings :=
  { ENABLE_OPENAI_COMPATIBLE_API := false
    ENABLE_XROUTER := true, ENABLE_AGENTS := true, ENABLE_DEEPSEEK := true
    ENABLE_OPENROUTER := true, ENABLE_OPENROUTER_PROXY := true
    ENABLE_GIGACHAT := true, ENABLE_YANDEX := true, ENABLE_OLLAMA := true
    ENABLE_ZAI := true }

/-- C6 counterexample: with every provider enabled, an id whose provider
segment is unknown resolves to a 403 (treated as a disabled provider), not a
400. -/
theorem unknown_provider_resolves_403_counterexample :
    getProviderByModelId allEnabledSettings ("unknownprov/some-model".toList) =
      .error ⟨403, "Provider is disabled by feature toggle"⟩ ∧
    getProviderByModelId allEnabledSettings ("no-slash-model".toList) =
      .error ⟨400, "Invalid model ID format"⟩ := ⟨rfl, rfl⟩

lemma takeWhile_ne_slash (p : List Char) (hp : '/' ∉ p) (m : List Char) :
    (p ++ '/' :: m).takeWhile (fun c => c != '/') = p := by
  rw [List.takeWhile_append_of_pos (fun a ha => by
    simp only [bne_iff_ne, ne_eq]
    intro hcon
    exact hp (hcon ▸ ha))]
  simp [List.takeWhile_cons]

lemma dropWhile_ne_slash (p : List Char) (hp : '/' ∉ p) (m : List Char) :
    (p ++ '/' :: m).dropWhile (fun c => c != '/') = '/' :: m := by
  rw [List.dropWhile_append_of_pos (fun a ha => by
    simp only [bne_iff_ne, ne_eq]
    intro hcon
    exact hp (hcon ▸ ha))]
  simp [List.dropWhile_cons]

/-- C6 (amended): for every gateway-dialect model id `provider/model` whose
provider segment is not one of the nine known aliases, resolution fails with
a 403 disabled-provider error (whatever the toggles); the 400 "invalid
format" error is reserved for ids without a `/`. -/
theorem unknown_provider_resolution (s : Settings) (p m : List Char)
    (hapi : s.ENABLE_OPENAI_COMPATIBLE_API = false)
    (hat : (p ++ '/' :: m).contains '@' = false)
    (hslash : '/' ∉ p)
    (hunknown : p ∉ ["xrouter".toList, "agents".toList, "deepseek".toList,
      "openrouter".toList, "openrouter-proxy".toList, "gigachat".toList,
      "yandex".toList, "ollama".toList, "zai".toList]) :
    getProviderByModelId s (p ++ '/' :: m) =
      .error ⟨403, "Provider is disabled by feature toggle"⟩ := by
  simp only [List.mem_cons, List.mem_singleton, not_or] at hunknown
  obtain ⟨h1, h2, h3, h4, h5, h6, h7, h8, h9, _⟩ := hunknown
  have hslash2 : (p ++ '/' :: m).contains '/' = true := by
    rw [List.contains_eq_any_beq]
    rw [List.any_eq_true]
    exact ⟨'/', List.mem_append_right p (List.mem_cons_self _ _), by simp⟩
  have henabled : isProviderEnabled s p = false := by
    unfold isProviderEnabled
    rw [if_neg h1, if_neg h2, if_neg h3, if_neg h4, if_neg h5, if_neg h6,
      if_neg h7, if_neg h8, if_neg h9]
  unfold getProviderByModelId
  rw [hapi]
  simp only [Bool.false_eq_true, if_false, hat, hslash2, if_true,
    takeWhile_ne_slash p hslash m, dropWhile_ne_slash p hslash m, List.tail_cons,
    henabled, Bool.not_false]

/-- C6 witness: the amended rule evaluated at provider segment `"foo"`. -/
theorem unknown_provider_resolution_witness :
    getProviderByModelId allEnabledSettings ("foo".toList ++ '/' :: "bar".toList) =
      .error ⟨403, "Provider is disabled by feature toggle"⟩ :=
  unknown_provider_resolution allEnabledSettings "foo".toList "bar".toList
    rfl (by decide) (by decide) (by decide)

lemma addHttpScheme_of_no_slash (server : List Char) (hslash : '/' ∉ server) :
    addHttpScheme server = "http://".toList ++ server := by
  unfold addHttpScheme
  rw [if_neg]
  intro hcon
  rcases Bool.or_eq_true_iff.mp hcon with hx | hx
  · obtain ⟨t, ht⟩ := List.isPrefixOf_iff_prefix.mp hx
    exact hslash (by rw [← ht]; exact List.mem_append_left _ (by decide))
  · obtain ⟨t, ht⟩ := List.isPrefixOf_iff_prefix.mp hx
    exact hslash (by rw [← ht]; exact List.mem_append_left _ (by decide))

lemma netlocOf_addHttpScheme (server : List Char) (hslash : '/' ∉ server)
    (hq : '?' ∉ server) (hh : '#' ∉ server) :
    netlocOf (addHttpScheme server) = server := by
  rw [addHttpScheme_of_no_slash server hslash]
  unfold netlocOf
  have hpre2 : "http://".toList.isPrefixOf ("http://".toList ++ server) = true :=
    List.isPrefixOf_iff_prefix.mpr ⟨server, rfl⟩
  rw [if_pos hpre2, List.drop_left]
  apply List.takeWhile_eq_self_iff.mpr
  intro a ha
  simp only [bne_iff_ne, ne_eq, Bool.and_eq_true]
  exact ⟨⟨fun hc => hslash (hc ▸ ha), fun hc => hq (hc ▸ ha)⟩, fun hc => hh (hc ▸ ha)⟩

lemma parseOllamaModelId_ok (server model : List Char) (hsne : server ≠ [])
    (hslash : '/' ∉ server) (hq : '?' ∉ server) (hh : '#' ∉ server)
    (hmne : model ≠ []) :
    parseOllamaModelId ("ollama@".toList ++ server ++ '/' :: model) =
      .ok (addHttpScheme server, model) := by
  have hpre : "ollama@".toList.isPrefixOf
      ("ollama@".toList ++ server ++ '/' :: model) = true :=
    List.isPrefixOf_iff_prefix.mpr ⟨server ++ '/' :: model, rfl⟩
  unfold parseOllamaModelId
  rw [if_pos hpre]
  dsimp only
  rw [show List.drop "ollama@".toList.length
        ("ollama@".toList ++ server ++ '/' :: model) = server ++ '/' :: model
      from rfl,
    takeWhile_ne_slash server hslash model,
    dropWhile_ne_slash server hslash model]
  dsimp only
  rw [if_neg (by
    rintro (hcon | hcon)
    · exact hsne hcon
    · exact hmne hcon)]
  rw [netlocOf_addHttpScheme server hslash hq hh, if_neg hsne]

/-- C9: an id `ollama@server/model` with Ollama enabled and a well-formed
server part resolves even when no configured (url, key) pair matches the
normalized server URL: the binding carries empty credentials and uses the
server URL from the id as base_url. -/
theorem ollama_unmatched_server_resolution (s : Settings) (server model : List Char)
    (hapi : s.ENABLE_OPENAI_COMPATIBLE_API = false)
    (hol : s.ENABLE_OLLAMA = true)
    (hsne : server ≠ [])
    (hslash : '/' ∉ server)
    (hq : '?' ∉ server)
    (hh : '#' ∉ server)
    (hmne : model ≠ [])
    (hmiss : ∀ pr ∈ parseOllamaUrlsAndKeys s, pr.1 ≠ addHttpScheme server) :
    getProviderByModelId s ("ollama@".toList ++ server ++ '/' :: model) =
      .ok ({ provider_id := "ollama".toList
             name := "Ollama".toList
             credentials := []
             base_url := addHttpScheme server
             timeout := s.PROVIDER_TIMEOUT }, model) := by
  have hat : ("ollama@".toList ++ server ++ '/' :: model).contains '@' = true := by
    rw [List.contains_eq_any_beq, List.any_eq_true]
    have h1 : '@' ∈ "ollama@".toList := by decide
    exact ⟨'@', List.mem_append_left _ (List.mem_append_left _ h1), by simp⟩
  have henabled : isProviderEnabled s "ollama".toList = s.ENABLE_OLLAMA := rfl
  have hfind : (parseOllamaUrlsAndKeys s).find?
      (fun pr => pr.1 == addHttpScheme server) = none := by
    rw [List.find?_eq_none]
    intro pr hpr
    simpa using hmiss pr hpr
  unfold getProviderByModelId
  rw [hapi]
  simp only [Bool.false_eq_true, if_false, hat, if_true,
    parseOllamaModelId_ok server model hsne hslash hq hh hmne]
  rw [henabled, hol]
  simp only [Bool.not_true, Bool.false_eq_true, if_false, if_pos rfl, hfind]

/-- C9 witness: `ollama@h1:11434/llama3` with no configured Ollama servers
resolves with empty credentials and base_url `http://h1:11434`. -/
theorem ollama_unmatched_server_resolution_witness :
    getProviderByModelId allEnabledSettings
        ("ollama@".toList ++ "h1:11434".toList ++ '/' :: "llama3".toList) =
      .ok ({ provider_id := "ollama".toList
             name := "Ollama".toList
             credentials := []
             base_url := addHttpScheme "h1:11434".toList
             timeout := allEnabledSettings.PROVIDER_TIMEOUT }, "llama3".toList) :=
  ollama_unmatched_server_resolution allEnabledSettings "h1:11434".toList
    "llama3".toList rfl rfl (by decide) (by decide) (by decide) (by decide)
    (by decide) (by intro pr hpr; simp [parseOllamaUrlsAndKeys, allEnabledSettings] at hpr)

end XRouter
